import Mathlib

/-!
A verification development for the `Vector3D part 2 surfaces and perspective`
program: a 3D vector-object renderer built around a fixed transform pipeline
(advance Euler angles, build rotation matrix, rotate + translate vertices,
perspective projection) and a painter's-algorithm depth pass (per-surface mean
depth, stable descending sort).

The embedding below follows the Python source closely.  Numeric values
(`numpy` float64 in the source) are modelled by real numbers; `numpy` arrays
become Lean lists of tuples (`Fin n → ℝ`) or `Matrix` values; Python's
stable `list.sort` becomes `List.mergeSort`.
-/

/-- A surface of a vector object (`VectorObjectSurface.__init__` defaults). -/
structure VectorObjectSurface where
  idnum : ℕ
  nodes : List ℕ
  color : ℕ × ℕ × ℕ
  edgeWidth : ℕ
  zpos : ℝ

/-- Default surface, as produced by `VectorObjectSurface.__init__`. -/
noncomputable def VectorObjectSurface.init : VectorObjectSurface :=
  { idnum := 0, nodes := [], color := (0, 0, 0), edgeWidth := 0, zpos := 0 }

noncomputable instance : Inhabited VectorObjectSurface :=
  ⟨VectorObjectSurface.init⟩

/-- Source method `VectorObjectSurface.setZPos`: store the computed z position. -/
def VectorObjectSurface.setZPos (s : VectorObjectSurface) (z : ℝ) :
    VectorObjectSurface :=
  { s with zpos := z }

/-- A vector object.  `nodes` rows carry the homogeneous coordinate as a
fourth component; `rotatedNodes` rows are world-space 3D points; `transNodes`
rows are 2D screen points. -/
structure VectorObject where
  position : Fin 4 → ℝ
  angles : Fin 3 → ℝ
  rotationMatrix : Matrix (Fin 3) (Fin 3) ℝ
  rotateSpeed : Fin 3 → ℝ
  nodes : List (Fin 4 → ℝ)
  rotatedNodes : List (Fin 3 → ℝ)
  transNodes : List (Fin 2 → ℝ)
  surfaces : List VectorObjectSurface
  minShade : ℝ

/-- The degree-to-radian scale `(2.0 * np.pi) / 360.0` from
`VectorObject.__init__`. -/
noncomputable def angleScale : ℝ := 2 * Real.pi / 360

/-- Default object state, as produced by `VectorObject.__init__`. -/
noncomputable def VectorObject.init : VectorObject :=
  { position := ![0, 0, 0, 1]
    angles := ![0, 0, 0]
    rotationMatrix := 0
    rotateSpeed := ![0, 0, 0]
    nodes := []
    rotatedNodes := []
    transNodes := []
    surfaces := []
    minShade := 0.2 }

/-- Source method `VectorObject.setPosition`. -/
def VectorObject.setPosition (o : VectorObject) (position : Fin 4 → ℝ) :
    VectorObject :=
  { o with position := position }

/-- Source method `VectorObject.setRotateSpeed`. -/
def VectorObject.setRotateSpeed (o : VectorObject) (angles : Fin 3 → ℝ) :
    VectorObject :=
  { o with rotateSpeed := angles }

/-- Source method `VectorObject.addNodes`: store the node array with an appended column of
ones (`np.hstack((node_array, np.ones((len(node_array), 1))))`) and initialize
`rotatedNodes` with the raw nodes. -/
def VectorObject.addNodes (o : VectorObject) (node_array : List (Fin 3 → ℝ)) :
    VectorObject :=
  { o with
    nodes := node_array.map (fun r => Fin.snoc r 1)
    rotatedNodes := node_array }

/-- Source method `VectorObject.addSurfaces`: append a surface with the given properties. -/
def VectorObject.addSurfaces (o : VectorObject) (idnum : ℕ)
    (color : ℕ × ℕ × ℕ) (edgeWidth : ℕ) (node_list : List ℕ) : VectorObject :=
  { o with
    surfaces := o.surfaces ++
      [{ idnum := idnum, color := color, edgeWidth := edgeWidth,
         nodes := node_list, zpos := 0 }] }

/-- One component of `VectorObject.increaseAngles` after the addition: the
conditional single wrap
`if angle >= 360: angle -= 360` then `if angle < 0: angle += 360`. -/
noncomputable def wrapAngle (a : ℝ) : ℝ :=
  let a1 := if a ≥ 360 then a - 360 else a
  if a1 < 0 then a1 + 360 else a1

/-- Source method `VectorObject.increaseAngles`: add the rotation speed to the angles and
apply the conditional single wrap per component. -/
noncomputable def VectorObject.increaseAngles (o : VectorObject) :
    VectorObject :=
  { o with angles := fun i => wrapAngle (o.angles i + o.rotateSpeed i) }

/-- The 3×3 matrix built by `VectorObject.setRotationMatrix` from the three
orientation angles (degrees), entry for entry as in the source. -/
noncomputable def rotationMatrixFor (angles : Fin 3 → ℝ) :
    Matrix (Fin 3) (Fin 3) ℝ :=
  let sx := Real.sin (angles 0 * angleScale)
  let sy := Real.sin (angles 1 * angleScale)
  let sz := Real.sin (angles 2 * angleScale)
  let cx := Real.cos (angles 0 * angleScale)
  let cy := Real.cos (angles 1 * angleScale)
  let cz := Real.cos (angles 2 * angleScale)
  Matrix.of
    ![![cy * cz, -(cy * sz), sy],
      ![cx * sz + cz * sx * sy, cx * cz - sx * sy * sz, -(cy * sx)],
      ![sx * sz - cx * cz * sy, cz * sx + cx * sy * sz, cx * cy]]

/-- Source method `VectorObject.setRotationMatrix`: recompute the rotation matrix from the
current angles. -/
noncomputable def VectorObject.setRotationMatrix (o : VectorObject) :
    VectorObject :=
  { o with rotationMatrix := rotationMatrixFor o.angles }

/-- Standard per-axis rotation matrix about the X axis by `t` radians
(spec section 4.2, step 2). -/
noncomputable def xRotationMatrix (t : ℝ) : Matrix (Fin 3) (Fin 3) ℝ :=
  Matrix.of
    ![![1, 0, 0],
      ![0, Real.cos t, -Real.sin t],
      ![0, Real.sin t, Real.cos t]]

/-- Standard per-axis rotation matrix about the Y axis by `t` radians. -/
noncomputable def yRotationMatrix (t : ℝ) : Matrix (Fin 3) (Fin 3) ℝ :=
  Matrix.of
    ![![Real.cos t, 0, Real.sin t],
      ![0, 1, 0],
      ![-Real.sin t, 0, Real.cos t]]

/-- Standard per-axis rotation matrix about the Z axis by `t` radians. -/
noncomputable def zRotationMatrix (t : ℝ) : Matrix (Fin 3) (Fin 3) ℝ :=
  Matrix.of
    ![![Real.cos t, -Real.sin t, 0],
      ![Real.sin t, Real.cos t, 0],
      ![0, 0, 1]]

/-- C2: the matrix assembled by `setRotationMatrix` is exactly the X-then-Y-
then-Z composition of the three per-axis rotations by the angles converted to
radians: as a matrix product it is `X * Y * Z`, so under the row-vector
convention used by `rotate` (node rows right-multiplied by the matrix) the X
rotation acts first, then Y, then Z. -/
theorem setRotationMatrix_eq_xyz_composition (angles : Fin 3 → ℝ) :
    rotationMatrixFor angles =
      xRotationMatrix (angles 0 * angleScale) *
        (yRotationMatrix (angles 1 * angleScale) *
          zRotationMatrix (angles 2 * angleScale)) ∧
    ∀ v : Fin 3 → ℝ,
      Matrix.vecMul v (rotationMatrixFor angles) =
        Matrix.vecMul
          (Matrix.vecMul (Matrix.vecMul v (xRotationMatrix (angles 0 * angleScale)))
            (yRotationMatrix (angles 1 * angleScale)))
          (zRotationMatrix (angles 2 * angleScale)) := by
  have hm : rotationMatrixFor angles =
      xRotationMatrix (angles 0 * angleScale) *
        (yRotationMatrix (angles 1 * angleScale) *
          zRotationMatrix (angles 2 * angleScale)) := by
    ext i j
    fin_cases i <;> fin_cases j <;>
      simp [rotationMatrixFor, xRotationMatrix, yRotationMatrix,
        zRotationMatrix, Matrix.mul_apply, Fin.sum_univ_three] <;>
      ring
  refine ⟨hm, fun v => ?_⟩
  rw [hm, ← Matrix.vecMul_vecMul, ← Matrix.vecMul_vecMul]

/-- Source method `VectorObject.rotate`: stack the position under the rotation matrix
(`np.vstack`) forming a 4×3 transform, and right-multiply the N×4 node rows
by it (`np.dot(self.nodes, matrix)`). -/
noncomputable def VectorObject.rotate (o : VectorObject) : VectorObject :=
  let matrix : Fin 4 → Fin 3 → ℝ :=
    Fin.snoc (fun k => o.rotationMatrix k) (fun j => o.position j.castSucc)
  { o with
    rotatedNodes := o.nodes.map (fun row j => ∑ k : Fin 4, row k * matrix k j) }

/-- Source method `VectorObject.transform`: perspective divide by the Z column, scale by
`zScale` and add the screen center. -/
noncomputable def VectorObject.transform (o : VectorObject) (zScale : ℝ)
    (midScreen : Fin 2 → ℝ) : VectorObject :=
  { o with
    transNodes := o.rotatedNodes.map
      (fun row j => row j.castSucc * zScale / row 2 + midScreen j) }

/-- C3: on a vertex set stored by `addNodes` (homogeneous 1 appended), the
single N×4 by 4×3 product computed by `rotate` with matrix `R` stacked over
position `p` gives, row for row, the naive per-vertex result: rotate the
3-vector by `R` (row-vector convention), then add the first three components
of `p`. -/
theorem rotate_eq_pointwise_rotate_add_position (o : VectorObject)
    (node_array : List (Fin 3 → ℝ)) (R : Matrix (Fin 3) (Fin 3) ℝ)
    (p : Fin 4 → ℝ) :
    ({ o.addNodes node_array with
        rotationMatrix := R, position := p }).rotate.rotatedNodes =
      node_array.map
        (fun v j => (∑ k : Fin 3, v k * R k j) + p j.castSucc) := by
  simp only [VectorObject.rotate, VectorObject.addNodes, List.map_map]
  refine List.map_congr_left (fun v _ => ?_)
  funext j
  rw [Function.comp_apply, Fin.sum_univ_castSucc]
  simp [Fin.snoc_castSucc, Fin.snoc_last]

/-- C9: the matrix-build and apply-transform steps depend on no object state
other than the vertex set, the orientation angles and the position: two
objects agreeing on those three fields (but possibly differing in every other
field) get identical world-space vertices from
`setRotationMatrix` followed by `rotate`. -/
theorem rotate_pipeline_deterministic (o₁ o₂ : VectorObject)
    (hn : o₁.nodes = o₂.nodes) (ha : o₁.angles = o₂.angles)
    (hp : o₁.position = o₂.position) :
    o₁.setRotationMatrix.rotate.rotatedNodes =
      o₂.setRotationMatrix.rotate.rotatedNodes := by
  simp only [VectorObject.rotate, VectorObject.setRotationMatrix, hn, ha, hp]

/-- C9 witness: two concrete objects differing in rotation speed, surfaces
and shading but agreeing on nodes, angles and position produce the same
world-space vertices. -/
theorem rotate_pipeline_deterministic_witness :
    VectorObject.init.setRotationMatrix.rotate.rotatedNodes =
      ({ VectorObject.init with
          rotateSpeed := ![1, 2, 3]
          surfaces := [VectorObjectSurface.init]
          minShade := 0.5 }).setRotationMatrix.rotate.rotatedNodes :=
  rotate_pipeline_deterministic _ _ rfl rfl rfl

/-- C4: `transform` maps each world-space vertex (x, y, z) to
(x*zScale/z + midX, y*zScale/z + midY); in particular the full pipeline
(zero angles, position (0,0,Z,1) with Z > 0) projects an object-local (0,0,0)
vertex exactly to the screen-center offset. -/
theorem transform_perspective_projection (o : VectorObject) (zScale : ℝ)
    (midScreen : Fin 2 → ℝ) (i : ℕ) (hi : i < o.rotatedNodes.length)
    (Z : ℝ) (hZ : 0 < Z) :
    (o.transform zScale midScreen).transNodes.getD i (fun _ => 0) =
      ![(o.rotatedNodes.getD i (fun _ => 0)) 0 * zScale /
          (o.rotatedNodes.getD i (fun _ => 0)) 2 + midScreen 0,
        (o.rotatedNodes.getD i (fun _ => 0)) 1 * zScale /
          (o.rotatedNodes.getD i (fun _ => 0)) 2 + midScreen 1] ∧
    (((VectorObject.init.addNodes [fun _ => 0]).setPosition
        ![0, 0, Z, 1]).setRotationMatrix.rotate.transform zScale
          midScreen).transNodes = [midScreen] := by
  constructor
  · simp only [VectorObject.transform]
    rw [List.getD_eq_getElem?_getD, List.getD_eq_getElem?_getD,
      List.getElem?_map, List.getElem?_eq_getElem hi]
    funext j
    fin_cases j <;> simp
  · have hrot : ((VectorObject.init.addNodes [fun _ => 0]).setPosition
        ![0, 0, Z, 1]).setRotationMatrix.rotate.rotatedNodes =
        [![0, 0, Z]] := by
      simp only [VectorObject.rotate, VectorObject.setRotationMatrix,
        VectorObject.setPosition, VectorObject.addNodes, List.map_cons,
        List.map_nil]
      congr 1
      funext j
      rw [Fin.sum_univ_castSucc]
      simp [Fin.snoc_castSucc, Fin.snoc_last]
      fin_cases j <;> simp <;> rfl
    simp only [VectorObject.transform, hrot, List.map_cons, List.map_nil]
    congr 1
    funext j
    fin_cases j <;> simp

/-- C4 witness: at Z = 1500, zScale = 896 and screen center (640, 400), the
projection hypotheses hold and the stated projection facts follow. -/
theorem transform_perspective_projection_witness :
    (0 : ℕ) < (VectorObject.init.addNodes [fun _ => 0]).rotatedNodes.length ∧
    (0 : ℝ) < 1500 ∧
    ((((VectorObject.init.addNodes [fun _ => 0]).setPosition
        ![0, 0, 1500, 1]).setRotationMatrix.rotate.transform 896
          ![640, 400]).transNodes = [![640, 400]]) := by
  have hlen : (0 : ℕ) <
      (VectorObject.init.addNodes [fun _ => 0]).rotatedNodes.length := by
    simp [VectorObject.addNodes, VectorObject.init]
  refine ⟨hlen, by norm_num, ?_⟩
  exact (transform_perspective_projection
    (VectorObject.init.addNodes [fun _ => 0]) 896 ![640, 400] 0 hlen
    1500 (by norm_num)).2

/-- The per-surface update done inside `VectorObject.updateSurfaceZPos`:
`surface.setZPos(sum(rotatedNodes[node, 2] for node in surface.nodes) /
len(surface.nodes))`. -/
noncomputable def updateOneSurfaceZ (rotatedNodes : List (Fin 3 → ℝ))
    (s : VectorObjectSurface) : VectorObjectSurface :=
  s.setZPos
    ((s.nodes.map (fun node => (rotatedNodes.getD node (fun _ => 0)) 2)).sum /
      s.nodes.length)

/-- Source method `VectorObject.updateSurfaceZPos`: recompute every surface's z position
from the rotated nodes. -/
noncomputable def VectorObject.updateSurfaceZPos (o : VectorObject) :
    VectorObject :=
  { o with surfaces := o.surfaces.map (updateOneSurfaceZ o.rotatedNodes) }

/-- The descending-by-`zpos` comparison used to sort surfaces
(`key=lambda s: s.zpos, reverse=True`). -/
noncomputable def surfaceDepthGE (a b : VectorObjectSurface) : Bool :=
  decide (b.zpos ≤ a.zpos)

/-- Source method `VectorObject.sortSurfacesByZPos`: stable sort of the surface list,
most distant (largest `zpos`) first.  Python's `list.sort` is a stable sort;
it is modelled by the stable `List.mergeSort`. -/
noncomputable def VectorObject.sortSurfacesByZPos (o : VectorObject) :
    VectorObject :=
  { o with surfaces := o.surfaces.mergeSort surfaceDepthGE }

/-- Arithmetic mean of a list of reals (spec section 4.3, step 1). -/
noncomputable def arithMean (l : List ℝ) : ℝ := l.sum / l.length

/-- C5: for a surface with a non-empty, in-range vertex-index list,
`updateSurfaceZPos` sets its depth to the arithmetic mean of the world-space
Z coordinates of its constituent vertices. -/
theorem updateSurfaceZPos_mean (o : VectorObject) (i : ℕ)
    (hi : i < o.surfaces.length)
    (hne : (o.surfaces.getD i default).nodes ≠ [])
    (hvalid : ∀ node ∈ (o.surfaces.getD i default).nodes,
      node < o.rotatedNodes.length) :
    (o.updateSurfaceZPos.surfaces.getD i default).zpos =
      arithMean ((o.surfaces.getD i default).nodes.map
        (fun node => (o.rotatedNodes.getD node (fun _ => 0)) 2)) := by
  simp only [VectorObject.updateSurfaceZPos]
  rw [List.getD_eq_getElem?_getD, List.getElem?_map,
    List.getElem?_eq_getElem hi, List.getD_eq_getElem?_getD,
    List.getElem?_eq_getElem hi]
  simp [updateOneSurfaceZ, VectorObjectSurface.setZPos, arithMean]

/-- C5 witness: a two-node object with one surface over both nodes at depths
2 and 4 gets surface depth (2 + 4) / 2 = 3, the arithmetic mean. -/
theorem updateSurfaceZPos_mean_witness :
    (0 : ℕ) < ((VectorObject.init.addNodes [![0, 0, 2], ![0, 0, 4]]).addSurfaces
        0 (255, 255, 255) 0 [0, 1]).surfaces.length ∧
    ((((VectorObject.init.addNodes [![0, 0, 2], ![0, 0, 4]]).addSurfaces
        0 (255, 255, 255) 0 [0, 1]).surfaces.getD 0 default).nodes ≠ []) ∧
    ((((VectorObject.init.addNodes [![0, 0, 2], ![0, 0, 4]]).addSurfaces
        0 (255, 255, 255) 0
          [0, 1]).updateSurfaceZPos.surfaces.getD 0 default).zpos =
      arithMean (((((VectorObject.init.addNodes
        [![0, 0, 2], ![0, 0, 4]]).addSurfaces 0 (255, 255, 255) 0
          [0, 1]).surfaces.getD 0 default).nodes).map
        (fun node =>
          (((VectorObject.init.addNodes [![0, 0, 2], ![0, 0, 4]]).addSurfaces
            0 (255, 255, 255) 0
              [0, 1]).rotatedNodes.getD node (fun _ => 0)) 2))) := by
  refine ⟨?_, ?_, ?_⟩
  · simp [VectorObject.addSurfaces, VectorObject.addNodes, VectorObject.init]
  · simp [VectorObject.addSurfaces, VectorObject.addNodes, VectorObject.init]
  · exact updateSurfaceZPos_mean _ 0
      (by simp [VectorObject.addSurfaces, VectorObject.addNodes,
        VectorObject.init])
      (by simp [VectorObject.addSurfaces, VectorObject.addNodes,
        VectorObject.init])
      (by
        intro node hnode
        simp [VectorObject.addSurfaces, VectorObject.addNodes,
          VectorObject.init] at hnode ⊢
        omega)

/-- C6: `sortSurfacesByZPos` leaves the surface list ordered by depth
descending (most distant first), and the sort is stable: for every depth
value, the surfaces having exactly that depth appear after sorting in the
same relative order as before (their filtered sublists coincide). -/
theorem sortSurfacesByZPos_sorted_stable (o : VectorObject) :
    o.sortSurfacesByZPos.surfaces.Pairwise
      (fun a b => b.zpos ≤ a.zpos) ∧
    ∀ z : ℝ,
      o.sortSurfacesByZPos.surfaces.filter (fun s => decide (s.zpos = z)) =
        o.surfaces.filter (fun s => decide (s.zpos = z)) := by
  have htrans : ∀ a b c : VectorObjectSurface,
      surfaceDepthGE a b → surfaceDepthGE b c → surfaceDepthGE a c := by
    intro a b c hab hbc
    simp only [surfaceDepthGE, decide_eq_true_eq] at hab hbc ⊢
    exact le_trans hbc hab
  have htotal : ∀ a b : VectorObjectSurface,
      surfaceDepthGE a b || surfaceDepthGE b a := by
    intro a b
    simp only [surfaceDepthGE, Bool.or_eq_true, decide_eq_true_eq]
    exact le_total b.zpos a.zpos
  constructor
  · have h := List.sorted_mergeSort htrans htotal o.surfaces
    exact h.imp (fun hab => of_decide_eq_true hab)
  · intro z
    have hsub : List.Sublist (o.surfaces.filter (fun s => decide (s.zpos = z)))
        (o.surfaces.mergeSort surfaceDepthGE) := by
      apply List.sublist_mergeSort htrans htotal
      · apply List.pairwise_of_forall_mem_list
        intro a ha b hb
        have ha' : a.zpos = z := of_decide_eq_true (List.mem_filter.mp ha).2
        have hb' : b.zpos = z := of_decide_eq_true (List.mem_filter.mp hb).2
        simp only [surfaceDepthGE, decide_eq_true_eq, ha', hb', le_refl]
      · exact List.filter_sublist _
    have hself : (o.surfaces.filter (fun s => decide (s.zpos = z))).filter
        (fun s => decide (s.zpos = z)) =
        o.surfaces.filter (fun s => decide (s.zpos = z)) :=
      List.filter_eq_self.mpr (fun a ha => (List.mem_filter.mp ha).2)
    have hsub2 : List.Sublist
        (o.surfaces.filter (fun s => decide (s.zpos = z)))
        ((o.surfaces.mergeSort surfaceDepthGE).filter
          (fun s => decide (s.zpos = z))) := by
      have h := hsub.filter (fun s => decide (s.zpos = z))
      rwa [hself] at h
    have hperm : List.Perm
        ((o.surfaces.mergeSort surfaceDepthGE).filter
          (fun s => decide (s.zpos = z)))
        (o.surfaces.filter (fun s => decide (s.zpos = z))) :=
      (List.mergeSort_perm o.surfaces surfaceDepthGE).filter _
    exact (hsub2.eq_of_length hperm.length_eq.symm).symm

/-- Erase the derived depth of a surface, keeping all configured fields. -/
def stripZPos (s : VectorObjectSurface) : VectorObjectSurface :=
  { s with zpos := 0 }

/-- C10: the per-frame depth pass (`updateSurfaceZPos` then
`sortSurfacesByZPos`) leaves the surface list a permutation of what it held
before — no surface added, removed or duplicated once the derived depth field
is disregarded — and the per-surface update step changes nothing but the
depth field. -/
theorem depth_pass_permutation (o : VectorObject) :
    (o.updateSurfaceZPos.sortSurfacesByZPos.surfaces.map stripZPos).Perm
      (o.surfaces.map stripZPos) ∧
    o.updateSurfaceZPos.sortSurfacesByZPos.surfaces.Perm
      o.updateSurfaceZPos.surfaces ∧
    ∀ (rotatedNodes : List (Fin 3 → ℝ)) (s : VectorObjectSurface),
      (updateOneSurfaceZ rotatedNodes s).idnum = s.idnum ∧
      (updateOneSurfaceZ rotatedNodes s).nodes = s.nodes ∧
      (updateOneSurfaceZ rotatedNodes s).color = s.color ∧
      (updateOneSurfaceZ rotatedNodes s).edgeWidth = s.edgeWidth := by
  refine ⟨?_, ?_, ?_⟩
  · have hperm : o.updateSurfaceZPos.sortSurfacesByZPos.surfaces.Perm
        (o.surfaces.map (updateOneSurfaceZ o.rotatedNodes)) := by
      simp only [VectorObject.sortSurfacesByZPos, VectorObject.updateSurfaceZPos]
      exact List.mergeSort_perm _ _
    have hmap := hperm.map stripZPos
    rw [List.map_map] at hmap
    have hcomp : stripZPos ∘ updateOneSurfaceZ o.rotatedNodes = stripZPos := by
      funext s
      rfl
    rwa [hcomp] at hmap
  · simp only [VectorObject.sortSurfacesByZPos]
    exact List.mergeSort_perm _ _
  · intro rotatedNodes s
    exact ⟨rfl, rfl, rfl, rfl⟩

/-- Discrete input signals delivered to the main loop by `pygame.event.get`:
a window-close request, a key press bound in `key_to_function` (ESC or
SPACE), or any other event, which the loop ignores. -/
inductive PygameEvent where
  | quit
  | keydownEscape
  | keydownSpace
  | keydownOther

/-- The viewer state (`VectorViewer.__init__`), with the fields the loop
reads or writes; the pygame screen and clock are external collaborators. -/
structure VectorViewer where
  width : ℝ
  height : ℝ
  fullScreen : Bool
  backgroundColor : ℕ × ℕ × ℕ
  VectorObjs : List VectorObject
  midScreen : Fin 2 → ℝ
  zScale : ℝ
  lightPosition : Fin 3 → ℝ
  targetFPS : ℕ
  running : Bool
  paused : Bool

/-- Initial viewer state from `VectorViewer.__init__` for a width and height. -/
noncomputable def VectorViewer.init (width height : ℝ) : VectorViewer :=
  { width := width
    height := height
    fullScreen := false
    backgroundColor := (0, 0, 0)
    VectorObjs := []
    midScreen := ![width / 2, height / 2]
    zScale := width * 0.7
    lightPosition := ![400, 800, -500]
    targetFPS := 60
    running := true
    paused := false }

/-- Source method `VectorViewer.addVectorObj`. -/
def VectorViewer.addVectorObj (v : VectorViewer) (obj : VectorObject) :
    VectorViewer :=
  { v with VectorObjs := v.VectorObjs ++ [obj] }

/-- Source method `VectorViewer.terminate`. -/
def VectorViewer.terminate (v : VectorViewer) : VectorViewer :=
  { v with running := false }

/-- Source method `VectorViewer.pause`: toggle the paused flag. -/
def VectorViewer.pause (v : VectorViewer) : VectorViewer :=
  if v.paused = true then { v with paused := false }
  else { v with paused := true }

/-- Event dispatch in the main loop: QUIT stops the loop; keys are looked up
in `key_to_function` (ESC terminates, SPACE toggles pause); any other event
is ignored. -/
def VectorViewer.processEvent (v : VectorViewer) (e : PygameEvent) :
    VectorViewer :=
  match e with
  | PygameEvent.quit => { v with running := false }
  | PygameEvent.keydownEscape => v.terminate
  | PygameEvent.keydownSpace => v.pause
  | PygameEvent.keydownOther => v

/-- The per-object work of `VectorViewer.rotate`: advance angles, rebuild the
rotation matrix, rotate and project. -/
noncomputable def frameObjectPass (zScale : ℝ) (midScreen : Fin 2 → ℝ)
    (o : VectorObject) : VectorObject :=
  (o.increaseAngles.setRotationMatrix.rotate).transform zScale midScreen

/-- The per-object state change of `VectorViewer.display`: the depth pass
(drawing itself only touches the external screen). -/
noncomputable def displayObjectPass (o : VectorObject) : VectorObject :=
  o.updateSurfaceZPos.sortSurfacesByZPos

/-- One iteration of the `VectorViewer.run` main loop: process the pending
events in order, then, unless paused, execute the transform and render pass
over all objects (when paused, the loop only waits). -/
noncomputable def VectorViewer.stepFrame (v : VectorViewer)
    (events : List PygameEvent) : VectorViewer :=
  let v1 := events.foldl VectorViewer.processEvent v
  if v1.paused = true then v1
  else
    { v1 with
      VectorObjs := v1.VectorObjs.map
        (fun o => displayObjectPass (frameObjectPass v1.zScale v1.midScreen o)) }

/-- C7: pausing a running viewer with a TogglePause (SPACE) signal stops all
orientation advance and all transform/render state change for as many
iterations as it stays paused (with empty or unrecognized events); a second
TogglePause returns it to running and that iteration performs exactly one
advance, starting from the objects exactly as they were at the pause. -/
theorem pause_resume_exact (v : VectorViewer) (hr : v.running = true)
    (hp : v.paused = false) (k : ℕ) :
    (v.stepFrame [PygameEvent.keydownSpace]).paused = true ∧
    (v.stepFrame [PygameEvent.keydownSpace]).VectorObjs = v.VectorObjs ∧
    (fun s => VectorViewer.stepFrame s [])^[k]
        (v.stepFrame [PygameEvent.keydownSpace]) =
      v.stepFrame [PygameEvent.keydownSpace] ∧
    (v.stepFrame [PygameEvent.keydownSpace]).stepFrame
        [PygameEvent.keydownOther] =
      v.stepFrame [PygameEvent.keydownSpace] ∧
    (((fun s => VectorViewer.stepFrame s [])^[k]
        (v.stepFrame [PygameEvent.keydownSpace])).stepFrame
          [PygameEvent.keydownSpace]).paused = false ∧
    (((fun s => VectorViewer.stepFrame s [])^[k]
        (v.stepFrame [PygameEvent.keydownSpace])).stepFrame
          [PygameEvent.keydownSpace]).VectorObjs =
      v.VectorObjs.map
        (fun o => displayObjectPass (frameObjectPass v.zScale v.midScreen o)) := by
  have hv1 : v.stepFrame [PygameEvent.keydownSpace] = { v with paused := true } := by
    simp [VectorViewer.stepFrame, VectorViewer.processEvent,
      VectorViewer.pause, hp]
  have hfix : ∀ s : VectorViewer, s.paused = true → s.stepFrame [] = s := by
    intro s hs
    simp [VectorViewer.stepFrame, hs]
  have hiter : (fun s => VectorViewer.stepFrame s [])^[k]
      (v.stepFrame [PygameEvent.keydownSpace]) =
      v.stepFrame [PygameEvent.keydownSpace] := by
    apply Function.iterate_fixed
    rw [hv1]
    exact hfix _ rfl
  have hother : (v.stepFrame [PygameEvent.keydownSpace]).stepFrame
      [PygameEvent.keydownOther] = v.stepFrame [PygameEvent.keydownSpace] := by
    rw [hv1]
    simp [VectorViewer.stepFrame, VectorViewer.processEvent]
  have hresume : ({ v with paused := true } : VectorViewer).stepFrame
      [PygameEvent.keydownSpace] =
      { v with
        paused := false
        VectorObjs := v.VectorObjs.map
          (fun o =>
            displayObjectPass (frameObjectPass v.zScale v.midScreen o)) } := by
    simp [VectorViewer.stepFrame, VectorViewer.processEvent,
      VectorViewer.pause]
  refine ⟨by rw [hv1], by rw [hv1], hiter, hother, ?_, ?_⟩
  · rw [hiter, hv1, hresume]
  · rw [hiter, hv1, hresume]

/-- C7 witness: the pause/resume behaviour holds at the concrete initial
viewer of the program (1280×800), paused across three idle iterations. -/
theorem pause_resume_exact_witness :
    ((VectorViewer.init 1280 800).stepFrame
        [PygameEvent.keydownSpace]).paused = true ∧
    ((VectorViewer.init 1280 800).stepFrame
        [PygameEvent.keydownSpace]).VectorObjs =
      (VectorViewer.init 1280 800).VectorObjs ∧
    (fun s => VectorViewer.stepFrame s [])^[3]
        ((VectorViewer.init 1280 800).stepFrame [PygameEvent.keydownSpace]) =
      (VectorViewer.init 1280 800).stepFrame [PygameEvent.keydownSpace] ∧
    (((VectorViewer.init 1280 800).stepFrame
        [PygameEvent.keydownSpace]).stepFrame [PygameEvent.keydownOther]) =
      (VectorViewer.init 1280 800).stepFrame [PygameEvent.keydownSpace] ∧
    ((((fun s => VectorViewer.stepFrame s [])^[3]
        ((VectorViewer.init 1280 800).stepFrame
          [PygameEvent.keydownSpace])).stepFrame
            [PygameEvent.keydownSpace]).paused = false) ∧
    ((((fun s => VectorViewer.stepFrame s [])^[3]
        ((VectorViewer.init 1280 800).stepFrame
          [PygameEvent.keydownSpace])).stepFrame
            [PygameEvent.keydownSpace]).VectorObjs =
      (VectorViewer.init 1280 800).VectorObjs.map
        (fun o => displayObjectPass (frameObjectPass
          (VectorViewer.init 1280 800).zScale
          (VectorViewer.init 1280 800).midScreen o))) :=
  pause_resume_exact (VectorViewer.init 1280 800) rfl rfl 3

/-- C8: an object with angular velocity (400, 0, 0) advanced once by
`increaseAngles` from orientation (0, 0, 0) ends with orientation exactly
(40, 0, 0), not (400, 0, 0). -/
theorem rotation_wrap_scenario :
    ({ VectorObject.init with
        rotateSpeed := ![400, 0, 0] }).increaseAngles.angles = ![40, 0, 0] ∧
      ({ VectorObject.init with
        rotateSpeed := ![400, 0, 0] }).increaseAngles.angles ≠ ![400, 0, 0] := by
  have h : ({ VectorObject.init with
      rotateSpeed := ![400, 0, 0] }).increaseAngles.angles = ![40, 0, 0] := by
    funext i
    fin_cases i <;>
      simp [VectorObject.increaseAngles, VectorObject.init, wrapAngle] <;>
      norm_num
  refine ⟨h, ?_⟩
  intro hc
  have h0 := congrFun h 0
  have hc0 := congrFun hc 0
  rw [h0] at hc0
  norm_num at hc0

/-- C1 counterexample: from orientation (0,0,0) with angular velocity
(800, 0, 0), a single `increaseAngles` leaves the first angle at 440, which is
not in [0, 360): the single conditional wrap does not handle velocities of
magnitude 720 or more. -/
theorem increaseAngles_not_wrapped_above_720 :
    ({ VectorObject.init with
        rotateSpeed := ![800, 0, 0] }).increaseAngles.angles 0 = 440 ∧
      ¬ ({ VectorObject.init with
        rotateSpeed := ![800, 0, 0] }).increaseAngles.angles 0 < 360 := by
  have h : ({ VectorObject.init with
      rotateSpeed := ![800, 0, 0] }).increaseAngles.angles 0 = 440 := by
    norm_num [VectorObject.increaseAngles, VectorObject.init, wrapAngle]
  exact ⟨h, by rw [h]; norm_num⟩

/-- C1 (amended): whenever each component sum `angle + velocity` lies in
[-360, 720), one call to `increaseAngles` leaves every resulting angle in
[0, 360).  (In particular, with angles maintained in [0, 360), any velocity
component in [-360, 360] qualifies.) -/
theorem increaseAngles_mem_Ico_of_sum_bounded (o : VectorObject)
    (h : ∀ i, -360 ≤ o.angles i + o.rotateSpeed i ∧
      o.angles i + o.rotateSpeed i < 720) :
    ∀ i, 0 ≤ o.increaseAngles.angles i ∧ o.increaseAngles.angles i < 360 := by
  intro i
  obtain ⟨hlo, hhi⟩ := h i
  simp only [VectorObject.increaseAngles, wrapAngle]
  set a := o.angles i + o.rotateSpeed i with ha
  by_cases h1 : a ≥ 360
  · rw [if_pos h1]
    rw [if_neg (by linarith)]
    constructor <;> linarith
  · rw [if_neg h1]
    by_cases h2 : a < 0
    · rw [if_pos h2]
      constructor <;> linarith
    · rw [if_neg h2]
      constructor <;> linarith

/-- C1 witness: the amended bound holds at a concrete state, e.g. angles
(0,0,0) and velocity (400, -350, 0). -/
theorem increaseAngles_mem_Ico_witness :
    0 ≤ ({ VectorObject.init with
        rotateSpeed := ![400, -350, 0] }).increaseAngles.angles 0 ∧
      ({ VectorObject.init with
        rotateSpeed := ![400, -350, 0] }).increaseAngles.angles 0 < 360 :=
  increaseAngles_mem_Ico_of_sum_bounded _ (by
    intro i
    fin_cases i <;> norm_num [VectorObject.init]) 0
